import Mathlib

/-!
Verification of the serial-mcp-server concurrent data-plane layer.

Shallow embedding of `serial_mcp_server/mirror.py` (SerialBuffer,
ReaderThread, the mirror-slot allocator), `serial_mcp_server/state.py`
(SerialState) and `serial_mcp_server/handlers_serial.py` (handle_open,
handle_close, the read handlers).  Bytes are modelled as `List Nat`;
blocking is erased: a `read` that would block models the timeout path
when no data is available, exactly as the Python code behaves once the
deadline has passed with no concurrent writer.
-/

/-- Byte content of a Python string literal (each char as its code point). -/
def strBytes (s : String) : List Nat := s.toList.map Char.toNat

-- ---------------------------------------------------------------------------
-- SerialBuffer — mirror.py lines 34-106
-- ---------------------------------------------------------------------------

/-- `SerialBuffer.__init__`: `self._buf = bytearray(); self._max_size = max_size`.
The lock and condition variable are erased (all operations are atomic here). -/
structure SerialBuffer where
  buf : List Nat
  max_size : Nat
deriving DecidableEq, Repr

/-- `SerialBuffer.write`: no-op on empty input, append, then trim the excess
from the front when the buffer exceeds `max_size` (drop oldest data). -/
def SerialBuffer.write (b : SerialBuffer) (data : List Nat) : SerialBuffer :=
  if data = [] then b
  else
    let nb := b.buf ++ data
    if nb.length > b.max_size then
      { b with buf := nb.drop (nb.length - b.max_size) }
    else
      { b with buf := nb }

/-- `SerialBuffer.read`: with no concurrent writer, an empty buffer waits out
the timeout and returns `b""`; otherwise up to `nbytes` are taken from the
front and consumed.  Returns (result, buffer after the call). -/
def SerialBuffer.read (b : SerialBuffer) (nbytes : Nat) : List Nat × SerialBuffer :=
  if b.buf = [] then ([], b)
  else
    let n := min nbytes b.buf.length
    (b.buf.take n, { b with buf := b.buf.drop n })

/-- `bytearray.find(delimiter)`: lowest index at which `delim` occurs as a
contiguous subsequence, `none` when absent.  Like Python, an empty needle
is found at index 0. -/
def bytesFind (delim : List Nat) : List Nat → Option Nat
  | [] => if delim.isPrefixOf ([] : List Nat) then some 0 else none
  | x :: t =>
    if delim.isPrefixOf (x :: t) then some 0
    else (bytesFind delim t).map (· + 1)

/-- `SerialBuffer.read_until`: the loop body evaluated once the wait can no
longer change the outcome — delimiter found, `max_bytes` reached, or the
deadline passed (then return whatever is buffered).  Returns
(result, buffer after the call). -/
def SerialBuffer.read_until (b : SerialBuffer) (delimiter : List Nat)
    (max_bytes : Nat) : List Nat × SerialBuffer :=
  match bytesFind delimiter b.buf with
  | some idx =>
    let e := min (idx + delimiter.length) max_bytes
    (b.buf.take e, { b with buf := b.buf.drop e })
  | none =>
    if b.buf.length ≥ max_bytes then
      (b.buf.take max_bytes, { b with buf := b.buf.drop max_bytes })
    else
      let n := min b.buf.length max_bytes
      (b.buf.take n, { b with buf := b.buf.drop n })

/-- `SerialBuffer.clear`. -/
def SerialBuffer.clear (b : SerialBuffer) : SerialBuffer := { b with buf := [] }

/-- `SerialBuffer.available`. -/
def SerialBuffer.available (b : SerialBuffer) : Nat := b.buf.length

/-- A sequence of `write` calls, in order. -/
def SerialBuffer.writeAll (b : SerialBuffer) (ws : List (List Nat)) : SerialBuffer :=
  ws.foldl SerialBuffer.write b

-- Basic facts about write -------------------------------------------------

theorem SerialBuffer.write_max_size (b : SerialBuffer) (d : List Nat) :
    (b.write d).max_size = b.max_size := by
  unfold SerialBuffer.write
  split
  · rfl
  · simp only []
    split
    · rfl
    · rfl

theorem SerialBuffer.write_length_le (b : SerialBuffer) (d : List Nat)
    (h : b.buf.length ≤ b.max_size) : (b.write d).buf.length ≤ b.max_size := by
  unfold SerialBuffer.write
  split
  · exact h
  · simp only []
    split
    · rename_i hgt
      show ((b.buf ++ d).drop ((b.buf ++ d).length - b.max_size)).length ≤ b.max_size
      simp only [List.length_drop]
      omega
    · rename_i hle
      show (b.buf ++ d).length ≤ b.max_size
      omega

theorem SerialBuffer.write_suffix (b : SerialBuffer) (d : List Nat) :
    (b.write d).buf <:+ b.buf ++ d := by
  unfold SerialBuffer.write
  split
  · rename_i hd
    subst hd
    simp
  · simp only []
    split
    · exact List.drop_suffix _ _
    · exact List.suffix_refl _

theorem SerialBuffer.writeAll_length_le (maxSize : Nat) (ws : List (List Nat))
    (b : SerialBuffer) (hb : b.buf.length ≤ b.max_size) (hm : b.max_size = maxSize) :
    (b.writeAll ws).buf.length ≤ maxSize := by
  induction ws generalizing b with
  | nil => simpa [SerialBuffer.writeAll, hm] using hb
  | cons w rest ih =>
    have h1 : (b.write w).buf.length ≤ (b.write w).max_size := by
      rw [SerialBuffer.write_max_size]
      exact SerialBuffer.write_length_le b w hb
    have h2 : (b.write w).max_size = maxSize := by
      rw [SerialBuffer.write_max_size, hm]
    simpa [SerialBuffer.writeAll] using ih (b.write w) h1 h2

/-- C1: after every sequence of writes starting from an empty buffer the
length never exceeds `max_size`; every write keeps a suffix of
(old contents ++ new data), i.e. the oldest bytes are the ones evicted;
and the spec's concrete example: max_size 10, write "0123456789" then
"AB", contents are exactly "23456789AB". -/
theorem c1_streambuffer_ring :
    (∀ (maxSize : Nat) (ws : List (List Nat)),
      (SerialBuffer.writeAll ⟨[], maxSize⟩ ws).buf.length ≤ maxSize) ∧
    (∀ (b : SerialBuffer) (d : List Nat), (b.write d).buf <:+ b.buf ++ d) ∧
    ((SerialBuffer.writeAll ⟨[], 10⟩
        [strBytes "0123456789", strBytes "AB"]).buf = strBytes "23456789AB") := by
  refine ⟨?_, SerialBuffer.write_suffix, ?_⟩
  · intro maxSize ws
    exact SerialBuffer.writeAll_length_le maxSize ws ⟨[], maxSize⟩ (by simp) rfl
  · decide

-- ---------------------------------------------------------------------------
-- C2 — interleaved write/read traces on a SerialBuffer
-- ---------------------------------------------------------------------------

/-- One buffer operation: a producer `write` or a consumer `read` (the read
chunk size is arbitrary, modelling arbitrary chunking). -/
inductive BufOp where
  | write (data : List Nat)
  | read (nbytes : Nat)
deriving DecidableEq, Repr

/-- Run a trace of operations, collecting the concatenation of all bytes the
reads returned. -/
def runOps (b : SerialBuffer) : List BufOp → SerialBuffer × List Nat
  | [] => (b, [])
  | BufOp.write d :: rest => runOps (b.write d) rest
  | BufOp.read n :: rest =>
    let r := b.read n
    let rec' := runOps r.2 rest
    (rec'.1, r.1 ++ rec'.2)

/-- Concatenation of all bytes written by the trace, in order. -/
def writtenBytes : List BufOp → List Nat
  | [] => []
  | BufOp.write d :: rest => d ++ writtenBytes rest
  | BufOp.read _ :: rest => writtenBytes rest

/-- True when no write in the trace ever overflows the buffer capacity
(so ring eviction never fires). -/
def overflowFree (b : SerialBuffer) : List BufOp → Bool
  | [] => true
  | BufOp.write d :: rest =>
    decide (b.buf.length + d.length ≤ b.max_size) && overflowFree (b.write d) rest
  | BufOp.read n :: rest => overflowFree (b.read n).2 rest

theorem SerialBuffer.write_buf_of_no_overflow (b : SerialBuffer) (d : List Nat)
    (h : b.buf.length + d.length ≤ b.max_size) : (b.write d).buf = b.buf ++ d := by
  unfold SerialBuffer.write
  split
  · rename_i hd; subst hd; simp
  · simp only []
    split
    · rename_i hgt
      rw [List.length_append] at hgt
      omega
    · rfl

theorem SerialBuffer.read_take_drop (b : SerialBuffer) (n : Nat) :
    (b.read n).1 ++ (b.read n).2.buf = b.buf := by
  unfold SerialBuffer.read
  split
  · rename_i h; simp [h]
  · simp [List.take_append_drop]

/-- Conservation invariant: reads delivered so far ++ bytes still buffered
= initial contents ++ bytes written, provided no write overflowed. -/
theorem runOps_conservation (ops : List BufOp) (b : SerialBuffer)
    (h : overflowFree b ops = true) :
    (runOps b ops).2 ++ (runOps b ops).1.buf = b.buf ++ writtenBytes ops := by
  induction ops generalizing b with
  | nil => simp [runOps, writtenBytes]
  | cons op rest ih =>
    cases op with
    | write d =>
      simp only [overflowFree, Bool.and_eq_true, decide_eq_true_eq] at h
      have hw := SerialBuffer.write_buf_of_no_overflow b d h.1
      have := ih (b.write d) h.2
      simp only [runOps, writtenBytes]
      rw [this, hw, List.append_assoc]
    | read n =>
      simp only [overflowFree] at h
      have := ih (b.read n).2 h
      simp only [runOps, writtenBytes]
      rw [List.append_assoc, this, ← List.append_assoc,
        SerialBuffer.read_take_drop]

/-- C2 as stated is false: with capacity 1, writing "AB" then reading drains
the buffer yet the reads return only "B" — the evicted byte is lost. -/
theorem c2_counterexample :
    (runOps ⟨[], 1⟩ [BufOp.write (strBytes "AB"), BufOp.read 2]).1.buf = [] ∧
    (runOps ⟨[], 1⟩ [BufOp.write (strBytes "AB"), BufOp.read 2]).2 ≠
      writtenBytes [BufOp.write (strBytes "AB"), BufOp.read 2] := by
  decide

/-- C2 (amended): for every interleaved trace of writes and reads starting
from an empty buffer, if no write ever exceeds capacity (no eviction) and
the final buffer is empty (reads drained it), then the concatenation of the
read results equals the concatenation of the written bytes, in order —
no duplication or loss, regardless of read chunking. -/
theorem c2_reads_return_writes (maxSize : Nat) (ops : List BufOp)
    (hof : overflowFree ⟨[], maxSize⟩ ops = true)
    (hdrained : (runOps ⟨[], maxSize⟩ ops).1.buf = []) :
    (runOps ⟨[], maxSize⟩ ops).2 = writtenBytes ops := by
  have h := runOps_conservation ops ⟨[], maxSize⟩ hof
  simpa [hdrained] using h

/-- Witness for C2's amended theorem: capacity 10, write "abc", write "de",
read 2, read 100 — the reads return exactly "abcde". -/
theorem c2_reads_return_writes_witness :
    (runOps ⟨[], 10⟩ [BufOp.write (strBytes "abc"), BufOp.write (strBytes "de"),
        BufOp.read 2, BufOp.read 100]).2 =
      writtenBytes [BufOp.write (strBytes "abc"), BufOp.write (strBytes "de"),
        BufOp.read 2, BufOp.read 100] :=
  c2_reads_return_writes 10 _ (by decide) (by decide)

-- ---------------------------------------------------------------------------
-- C3 / C4 — read_until semantics
-- ---------------------------------------------------------------------------

theorem bytesFind_some_isPrefix (d : List Nat) :
    ∀ (l : List Nat) (i : Nat), bytesFind d l = some i → d <+: l.drop i := by
  intro l
  induction l with
  | nil =>
    intro i h
    unfold bytesFind at h
    split at h
    · rename_i hp
      cases h
      exact List.isPrefixOf_iff_prefix.mp hp
    · exact absurd h (by simp)
  | cons x t ih =>
    intro i h
    unfold bytesFind at h
    split at h
    · rename_i hp
      cases h
      exact List.isPrefixOf_iff_prefix.mp hp
    · rw [Option.map_eq_some'] at h
      obtain ⟨j, hj, hji⟩ := h
      subst hji
      simpa using ih j hj

theorem take_at_match (l d : List Nat) (i : Nat) (h : d <+: l.drop i) :
    l.take (i + d.length) = l.take i ++ d := by
  rw [List.take_add]
  congr 1
  obtain ⟨r, hr⟩ := h
  rw [← hr, List.take_left]

/-- C3: `read_until` (i) returns the matched prefix including the delimiter
when the delimiter is found within the `max_bytes` budget, (ii) returns
exactly `max_bytes` bytes when no delimiter occurs and that threshold is
reached, (iii) returns whatever is buffered (possibly empty) on the timeout
path, (iv) always consumes exactly the returned bytes, and (v) on buffered
"line1\r\nline2\r\n" with delimiter "\r\n" and max_bytes 100 returns
"line1\r\n" then "line2\r\n". -/
theorem c3_read_until_cases :
    (∀ (b : SerialBuffer) (d : List Nat) (maxB i : Nat),
        bytesFind d b.buf = some i → i + d.length ≤ maxB →
        (b.read_until d maxB).1 = b.buf.take i ++ d ∧
          d <:+ (b.read_until d maxB).1) ∧
    (∀ (b : SerialBuffer) (d : List Nat) (maxB : Nat),
        bytesFind d b.buf = none → maxB ≤ b.buf.length →
        (b.read_until d maxB).1 = b.buf.take maxB ∧
          (b.read_until d maxB).1.length = maxB) ∧
    (∀ (b : SerialBuffer) (d : List Nat) (maxB : Nat),
        bytesFind d b.buf = none → b.buf.length < maxB →
        (b.read_until d maxB).1 = b.buf) ∧
    (∀ (b : SerialBuffer) (d : List Nat) (maxB : Nat),
        (b.read_until d maxB).1 ++ (b.read_until d maxB).2.buf = b.buf) ∧
    ((SerialBuffer.read_until ⟨strBytes "line1\r\nline2\r\n", 1048576⟩
        (strBytes "\r\n") 100).1 = strBytes "line1\r\n" ∧
      ((SerialBuffer.read_until ⟨strBytes "line1\r\nline2\r\n", 1048576⟩
          (strBytes "\r\n") 100).2.read_until (strBytes "\r\n") 100).1 =
        strBytes "line2\r\n") := by
  refine ⟨?_, ?_, ?_, ?_, by decide, by decide⟩
  · intro b d maxB i hf hle
    have hpre := bytesFind_some_isPrefix d b.buf i hf
    have htake := take_at_match b.buf d i hpre
    have hmin : min (i + d.length) maxB = i + d.length := Nat.min_eq_left hle
    simp only [SerialBuffer.read_until, hf, hmin, htake]
    exact ⟨trivial, List.suffix_append _ _⟩
  · intro b d maxB hf hge
    simp only [SerialBuffer.read_until, hf, ge_iff_le, hge, if_true]
    exact ⟨trivial, by simp [List.length_take, Nat.min_eq_left hge]⟩
  · intro b d maxB hf hlt
    have hn : ¬ maxB ≤ b.buf.length := by omega
    have hmin : min b.buf.length maxB = b.buf.length :=
      Nat.min_eq_left (Nat.le_of_lt hlt)
    simp only [SerialBuffer.read_until, hf, ge_iff_le, hn, if_false, hmin,
      List.take_length]
  · intro b d maxB
    unfold SerialBuffer.read_until
    rcases hf : bytesFind d b.buf with _ | i
    · simp only []
      split
      · simp [List.take_append_drop]
      · simp [List.take_append_drop]
    · simp [List.take_append_drop]

/-- Witness for C3: a buffer "ab\ncd" with delimiter "\n" exercises the
found-within-budget branch; undelimited "abcde" exercises the max-bytes and
timeout branches. -/
theorem c3_read_until_cases_witness :
    ((SerialBuffer.read_until ⟨strBytes "ab\ncd", 100⟩ (strBytes "\n") 100).1 =
        (strBytes "ab\ncd").take 2 ++ strBytes "\n") ∧
    ((SerialBuffer.read_until ⟨strBytes "abcde", 100⟩ (strBytes "\n") 3).1.length = 3) ∧
    ((SerialBuffer.read_until ⟨strBytes "abcde", 100⟩ (strBytes "\n") 50).1 =
        strBytes "abcde") :=
  ⟨(c3_read_until_cases.1 ⟨strBytes "ab\ncd", 100⟩ (strBytes "\n") 100 2
      (by decide) (by decide)).1,
    (c3_read_until_cases.2.1 ⟨strBytes "abcde", 100⟩ (strBytes "\n") 3
      (by decide) (by decide)).2,
    c3_read_until_cases.2.2.1 ⟨strBytes "abcde", 100⟩ (strBytes "\n") 50
      (by decide) (by decide)⟩

theorem bytesFind_empty_delim (l : List Nat) : bytesFind [] l = some 0 := by
  cases l <;> simp [bytesFind, List.isPrefixOf]

/-- C4 as stated is false on the code: `read_until` does not reject an empty
delimiter — `bytearray.find(b"")` yields index 0, so on a buffer whose first
bytes have arrived the call takes the delimiter-found branch (a trivial
immediate match) and returns at once. -/
theorem c4_counterexample :
    bytesFind [] (strBytes "abc") = some 0 ∧
    (SerialBuffer.read_until ⟨strBytes "abc", 1048576⟩ [] 4096).1 = [] ∧
    (SerialBuffer.read_until ⟨strBytes "abc", 1048576⟩ [] 4096).2 =
      ⟨strBytes "abc", 1048576⟩ := by
  decide

/-- C4 (amended): `read_until` accepts an empty delimiter and treats it as an
immediate trivial match at index 0: for every buffer state it returns the
empty byte string at once, consuming nothing — it is never rejected. -/
theorem c4_empty_delimiter_immediate_match (b : SerialBuffer) (maxB : Nat) :
    bytesFind [] b.buf = some 0 ∧
    (b.read_until [] maxB).1 = [] ∧ (b.read_until [] maxB).2 = b := by
  have hf := bytesFind_empty_delim b.buf
  refine ⟨hf, ?_, ?_⟩ <;> simp [SerialBuffer.read_until, hf]

-- ---------------------------------------------------------------------------
-- C5 — ReaderThread._run consecutive-error policy (mirror.py lines 138-164)
-- ---------------------------------------------------------------------------

/-- `ReaderThread._MAX_CONSECUTIVE_ERRORS`. -/
def MAX_CONSECUTIVE_ERRORS : Nat := 10

/-- Observable loop state of `ReaderThread._run`: the local `errors` counter
and whether the loop is still running (`alive`). -/
structure RunState where
  errors : Nat
  alive : Bool
deriving DecidableEq, Repr

/-- One iteration of `ReaderThread._run` with the stop event never set.
`iterError = true` models `self.ser.in_waiting` / `self.ser.read` raising:
the counter is incremented and, at the threshold, the loop breaks;
`iterError = false` models a successful iteration: `errors = 0`.
Nothing propagates out of the `try`. -/
def runStep (s : RunState) (iterError : Bool) : RunState :=
  if !s.alive then s
  else if iterError then
    let e := s.errors + 1
    if e ≥ MAX_CONSECUTIVE_ERRORS then { errors := e, alive := false }
    else { errors := e, alive := true }
  else { errors := 0, alive := true }

/-- Run `_run` over a trace of iteration outcomes, from the initial state
`errors = 0`, loop running. -/
def runTrace (trace : List Bool) : RunState :=
  trace.foldl runStep { errors := 0, alive := true }

theorem runStep_dead (s : RunState) (e : Bool) (h : s.alive = false) :
    runStep s e = s := by
  simp [runStep, h]

theorem runTrace_invariant (trace : List Bool) (s : RunState)
    (hs : s.errors ≤ MAX_CONSECUTIVE_ERRORS)
    (ha : s.alive = true → s.errors < MAX_CONSECUTIVE_ERRORS) :
    (trace.foldl runStep s).errors ≤ MAX_CONSECUTIVE_ERRORS ∧
      ((trace.foldl runStep s).alive = true →
        (trace.foldl runStep s).errors < MAX_CONSECUTIVE_ERRORS) := by
  induction trace generalizing s with
  | nil => exact ⟨hs, ha⟩
  | cons e rest ih =>
    simp only [List.foldl_cons]
    rcases halive : s.alive with _ | _
    · rw [runStep_dead s e halive]
      exact ih s hs ha
    · have herr := ha halive
      cases e with
      | false =>
        refine ih _ ?_ ?_ <;> simp [runStep, halive, MAX_CONSECUTIVE_ERRORS]
      | true =>
        by_cases hth : s.errors + 1 ≥ MAX_CONSECUTIVE_ERRORS
        · have : runStep s true = { errors := s.errors + 1, alive := false } := by
            simp [runStep, halive, hth]
          rw [this]
          refine ih _ (by simp; omega) (by simp)
        · have : runStep s true = { errors := s.errors + 1, alive := true } := by
            simp [runStep, halive, hth]
          rw [this]
          refine ih _ (by simp; omega) (by simp; omega)

theorem foldl_runStep_dead (trace : List Bool) (s : RunState)
    (h : s.alive = false) : (trace.foldl runStep s).alive = false := by
  induction trace generalizing s with
  | nil => exact h
  | cons e rest ih =>
    simp only [List.foldl_cons]
    rw [runStep_dead s e h]
    exact ih s h

theorem replicate_errors_kills (k : Nat) :
    ∀ (s : RunState), s.alive = true → s.errors < MAX_CONSECUTIVE_ERRORS →
      MAX_CONSECUTIVE_ERRORS ≤ s.errors + k →
      ((List.replicate k true).foldl runStep s).alive = false := by
  induction k with
  | zero => intro s h1 h2 h3; omega
  | succ n ih =>
    intro s h1 h2 h3
    simp only [List.replicate_succ, List.foldl_cons]
    by_cases hth : s.errors + 1 ≥ MAX_CONSECUTIVE_ERRORS
    · have hstep : runStep s true = { errors := s.errors + 1, alive := false } := by
        simp [runStep, h1, hth]
      rw [hstep]
      exact foldl_runStep_dead _ _ rfl
    · have hstep : runStep s true = { errors := s.errors + 1, alive := true } := by
        simp [runStep, h1, hth]
      rw [hstep]
      refine ih _ rfl (by simp; omega) (by simp; omega)

/-- C5: over every trace of iteration outcomes, the consecutive-error counter
never exceeds the threshold 10 (and is strictly below it whenever the loop is
still alive); a successful iteration resets it to zero; and any trace
followed by 10 consecutive errors leaves the loop terminated
(`alive = false`), without raising. -/
theorem c5_reader_error_policy :
    (∀ trace : List Bool,
        (runTrace trace).errors ≤ MAX_CONSECUTIVE_ERRORS ∧
          ((runTrace trace).alive = true →
            (runTrace trace).errors < MAX_CONSECUTIVE_ERRORS)) ∧
    (∀ s : RunState, s.alive = true → (runStep s false).errors = 0) ∧
    (∀ trace : List Bool,
        (runTrace (trace ++ List.replicate MAX_CONSECUTIVE_ERRORS true)).alive =
          false) := by
  refine ⟨?_, ?_, ?_⟩
  · intro trace
    exact runTrace_invariant trace _ (by simp [MAX_CONSECUTIVE_ERRORS]) (by simp [MAX_CONSECUTIVE_ERRORS])
  · intro s h
    simp [runStep, h]
  · intro trace
    unfold runTrace
    rw [List.foldl_append]
    set s := trace.foldl runStep { errors := 0, alive := true } with hs
    rcases halive : s.alive with _ | _
    · exact foldl_runStep_dead _ _ halive
    · have hinv := runTrace_invariant trace { errors := 0, alive := true }
        (by simp [MAX_CONSECUTIVE_ERRORS]) (by simp [MAX_CONSECUTIVE_ERRORS])
    
      exact replicate_errors_kills MAX_CONSECUTIVE_ERRORS s halive
        (by rw [hs] at halive ⊢; exact (hinv.2 halive)) (by omega)

/-- Witness for C5: a concrete trace — two errors, a success, then ten
consecutive errors — ends with the loop dead and the counter at the
threshold. -/
theorem c5_reader_error_policy_witness :
    ((runTrace [true, true, false]).errors ≤ MAX_CONSECUTIVE_ERRORS) ∧
    ((runStep { errors := 3, alive := true } false).errors = 0) ∧
    ((runTrace ([true, true, false] ++
        List.replicate MAX_CONSECUTIVE_ERRORS true)).alive = false) :=
  ⟨(c5_reader_error_policy.1 [true, true, false]).1,
    c5_reader_error_policy.2.1 { errors := 3, alive := true } rfl,
    c5_reader_error_policy.2.2 [true, true, false]⟩

-- ---------------------------------------------------------------------------
-- Registry — state.py SerialState, handlers_serial.py handle_open/handle_close
-- ---------------------------------------------------------------------------

/-- Observable fields of `SerialConnection` (state.py lines 23-42) that the
registry and the open/close handlers consult; `ser_is_open` models
`conn.ser.is_open`.  The buffer and reader objects are modelled separately
(SerialBuffer / RunState above). -/
structure Conn where
  connection_id : String
  port : String
  baudrate : Nat
  bytesize : Nat
  parity : String
  stopbits : ℚ
  ser_is_open : Bool
deriving DecidableEq, Repr

/-- `SerialState` (state.py lines 50-55): `self.connections: dict[str,
SerialConnection]` modelled as an insertion-ordered association list, and
`self.max_connections`. -/
structure SerialState where
  connections : List (String × Conn)
  max_connections : Nat
deriving DecidableEq, Repr

/-- Python `dict` assignment `self.connections[k] = v`: replace in place when
the key exists, else append. -/
def dictInsert (m : List (String × Conn)) (k : String) (v : Conn) :
    List (String × Conn) :=
  if m.any (fun e => e.1 == k) then
    m.map (fun e => if e.1 == k then (k, v) else e)
  else m ++ [(k, v)]

/-- `SerialState.add_connection` (state.py lines 68-74): raises RuntimeError
when the registry is at `max_connections`, else inserts. -/
def SerialState.add_connection (st : SerialState) (conn : Conn) :
    Except String SerialState :=
  if st.connections.length ≥ st.max_connections then
    Except.error "Maximum connections reached. Close a connection first."
  else
    Except.ok { st with
      connections := dictInsert st.connections conn.connection_id conn }

/-- `SerialState.remove_connection` (state.py lines 76-82): KeyError on an
unknown id, else pop and return the connection. -/
def SerialState.remove_connection (st : SerialState) (cid : String) :
    Except String (Conn × SerialState) :=
  match st.connections.find? (fun e => e.1 == cid) with
  | none => Except.error ("Unknown connection_id: " ++ cid)
  | some e =>
    Except.ok (e.2,
      { st with connections := st.connections.filter (fun p => !(p.1 == cid)) })

/-- The dict returned by `close_connection`. -/
structure CloseInfo where
  connection_id : String
  port : String
deriving DecidableEq, Repr

/-- `SerialState.close_connection` (state.py lines 84-98): remove, then stop
the reader and close the transport, each wrapped in try/except (so neither
can raise; `ser.close()` is only attempted when `ser.is_open`), and return
the descriptive info. -/
def SerialState.close_connection (st : SerialState) (cid : String) :
    Except String (CloseInfo × SerialState) :=
  match st.remove_connection cid with
  | Except.error e => Except.error e
  | Except.ok (conn, st2) =>
    Except.ok ({ connection_id := cid, port := conn.port }, st2)

/-- `handle_open` arguments after JSON decoding (handlers_serial.py
lines 429-438). -/
structure OpenArgs where
  port : String
  baudrate : Nat
  bytesize : Nat
  parity : String
  stopbits : ℚ
  timeout_ms : Int
  write_timeout_ms : Int
deriving DecidableEq, Repr

inductive OpenOutcome where
  | errInvalidParams
  | errAlreadyOpen (existingId : String)
  | errCapacity
  | opened (connId : String)
deriving DecidableEq, Repr

/-- Result of `handle_open`: the outcome, the registry afterwards, and
whether the rollback path ran `reader.stop()` / `ser.close()`. -/
structure OpenResult where
  outcome : OpenOutcome
  state : SerialState
  readerStopped : Bool
  transportClosed : Bool
deriving DecidableEq, Repr

/-- `handle_open` (handlers_serial.py lines 428-510), with the transport
open (`pyserial.Serial(**kwargs)`) assumed to succeed and the generated
connection id passed in as `freshId`.  Checks run in source order:
parity, stopbits, bytesize, timeouts, duplicate open port; then the
transport is opened, the reader started, and `add_connection` attempted —
on its failure the reader is stopped and the transport closed before the
error propagates. -/
def handle_open (st : SerialState) (a : OpenArgs) (freshId : String) :
    OpenResult :=
  if ¬ (a.parity ∈ (["N", "E", "O", "M", "S"] : List String)) then
    { outcome := OpenOutcome.errInvalidParams, state := st,
      readerStopped := false, transportClosed := false }
  else if ¬ (a.stopbits = 1 ∨ a.stopbits = 3/2 ∨ a.stopbits = 2) then
    { outcome := OpenOutcome.errInvalidParams, state := st,
      readerStopped := false, transportClosed := false }
  else if ¬ (a.bytesize ∈ ([5, 6, 7, 8] : List Nat)) then
    { outcome := OpenOutcome.errInvalidParams, state := st,
      readerStopped := false, transportClosed := false }
  else if a.timeout_ms < 0 ∨ a.write_timeout_ms < 0 then
    { outcome := OpenOutcome.errInvalidParams, state := st,
      readerStopped := false, transportClosed := false }
  else
    match st.connections.find? (fun e => e.2.port == a.port && e.2.ser_is_open) with
    | some e =>
      { outcome := OpenOutcome.errAlreadyOpen e.1, state := st,
        readerStopped := false, transportClosed := false }
    | none =>
      let conn : Conn :=
        { connection_id := freshId, port := a.port, baudrate := a.baudrate,
          bytesize := a.bytesize, parity := a.parity, stopbits := a.stopbits,
          ser_is_open := true }
      match st.add_connection conn with
      | Except.error _ =>
        { outcome := OpenOutcome.errCapacity, state := st,
          readerStopped := true, transportClosed := true }
      | Except.ok st2 =>
        { outcome := OpenOutcome.opened freshId, state := st2,
          readerStopped := false, transportClosed := false }

-- ---------------------------------------------------------------------------
-- C6 — capacity error at insert time, with rollback
-- ---------------------------------------------------------------------------

/-- C6: with valid parameters and no duplicate open port, `handle_open`
fails with a capacity error exactly when the registry already holds
`max_connections` (or more) connections — the check happens at insert time,
after the transport was opened and the reader started — and on that failure
the reader is stopped, the transport is closed, and the registry is
unchanged; below capacity the open succeeds. -/
theorem c6_capacity_error (st : SerialState) (a : OpenArgs) (freshId : String)
    (hpar : a.parity ∈ (["N", "E", "O", "M", "S"] : List String))
    (hstop : a.stopbits = 1 ∨ a.stopbits = 3/2 ∨ a.stopbits = 2)
    (hbyte : a.bytesize ∈ ([5, 6, 7, 8] : List Nat))
    (htmo : ¬ (a.timeout_ms < 0 ∨ a.write_timeout_ms < 0))
    (hdup : st.connections.find?
      (fun e => e.2.port == a.port && e.2.ser_is_open) = none) :
    ((handle_open st a freshId).outcome = OpenOutcome.errCapacity ↔
      st.max_connections ≤ st.connections.length) ∧
    (st.max_connections ≤ st.connections.length →
      (handle_open st a freshId).state = st ∧
        (handle_open st a freshId).readerStopped = true ∧
        (handle_open st a freshId).transportClosed = true) ∧
    (st.connections.length < st.max_connections →
      (handle_open st a freshId).outcome = OpenOutcome.opened freshId) := by
  have hrw : handle_open st a freshId =
      match st.add_connection
        { connection_id := freshId, port := a.port, baudrate := a.baudrate,
          bytesize := a.bytesize, parity := a.parity, stopbits := a.stopbits,
          ser_is_open := true } with
      | Except.error _ =>
        { outcome := OpenOutcome.errCapacity, state := st,
          readerStopped := true, transportClosed := true }
      | Except.ok st2 =>
        { outcome := OpenOutcome.opened freshId, state := st2,
          readerStopped := false, transportClosed := false } := by
    unfold handle_open
    rw [if_neg (not_not_intro hpar), if_neg (not_not_intro hstop),
      if_neg (not_not_intro hbyte), if_neg htmo, hdup]
  by_cases hcap : st.max_connections ≤ st.connections.length
  · have hadd : st.add_connection
        { connection_id := freshId, port := a.port, baudrate := a.baudrate,
          bytesize := a.bytesize, parity := a.parity, stopbits := a.stopbits,
          ser_is_open := true } =
        Except.error "Maximum connections reached. Close a connection first." := by
      unfold SerialState.add_connection
      rw [if_pos (by exact hcap)]
    rw [hadd] at hrw
    refine ⟨⟨fun _ => hcap, fun _ => by rw [hrw]⟩, fun _ => ?_, fun hlt => ?_⟩
    · rw [hrw]
      exact ⟨rfl, rfl, rfl⟩
    · omega
  · have hadd : ∃ st2, st.add_connection
        { connection_id := freshId, port := a.port, baudrate := a.baudrate,
          bytesize := a.bytesize, parity := a.parity, stopbits := a.stopbits,
          ser_is_open := true } = Except.ok st2 := by
      unfold SerialState.add_connection
      rw [if_neg (by exact hcap)]
      exact ⟨_, rfl⟩
    obtain ⟨st2, hadd⟩ := hadd
    rw [hadd] at hrw
    refine ⟨⟨fun h => ?_, fun h => absurd h hcap⟩,
      fun h => absurd h hcap, fun _ => by rw [hrw]⟩
    rw [hrw] at h
    exact absurd h (by simp)

/-- Witness for C6: registry at capacity 1 with one connection on another
port; a valid open attempt yields the capacity error, leaves the registry
unchanged, and runs the rollback. -/
theorem c6_capacity_error_witness :
    ((handle_open
        ⟨[("s1", ⟨"s1", "/dev/ttyUSB0", 115200, 8, "N", 1, true⟩)], 1⟩
        ⟨"/dev/ttyUSB1", 115200, 8, "N", 1, 200, 200⟩ "s2").outcome =
      OpenOutcome.errCapacity ↔
      (1 : Nat) ≤ 1) ∧
    ((handle_open
        ⟨[("s1", ⟨"s1", "/dev/ttyUSB0", 115200, 8, "N", 1, true⟩)], 1⟩
        ⟨"/dev/ttyUSB1", 115200, 8, "N", 1, 200, 200⟩ "s2").state =
      ⟨[("s1", ⟨"s1", "/dev/ttyUSB0", 115200, 8, "N", 1, true⟩)], 1⟩ ∧
      (handle_open
        ⟨[("s1", ⟨"s1", "/dev/ttyUSB0", 115200, 8, "N", 1, true⟩)], 1⟩
        ⟨"/dev/ttyUSB1", 115200, 8, "N", 1, 200, 200⟩ "s2").readerStopped = true ∧
      (handle_open
        ⟨[("s1", ⟨"s1", "/dev/ttyUSB0", 115200, 8, "N", 1, true⟩)], 1⟩
        ⟨"/dev/ttyUSB1", 115200, 8, "N", 1, 200, 200⟩ "s2").transportClosed = true) :=
  ⟨(c6_capacity_error
      ⟨[("s1", ⟨"s1", "/dev/ttyUSB0", 115200, 8, "N", 1, true⟩)], 1⟩
      ⟨"/dev/ttyUSB1", 115200, 8, "N", 1, 200, 200⟩ "s2"
      (by decide) (by norm_num) (by decide) (by decide) (by decide)).1,
    (c6_capacity_error
      ⟨[("s1", ⟨"s1", "/dev/ttyUSB0", 115200, 8, "N", 1, true⟩)], 1⟩
      ⟨"/dev/ttyUSB1", 115200, 8, "N", 1, 200, 200⟩ "s2"
      (by decide) (by norm_num) (by decide) (by decide) (by decide)).2.1
      (by decide)⟩

-- ---------------------------------------------------------------------------
-- C7 — close on an already-closed transport; closing twice
-- ---------------------------------------------------------------------------

/-- Whether `close_connection` returns without raising. -/
def closeSucceeds (st : SerialState) (cid : String) : Bool :=
  match st.close_connection cid with
  | Except.ok _ => true
  | Except.error _ => false

/-- Whether a second `close_connection` on the same id, issued on the state
left by a successful first close, also returns without raising. -/
def closeTwiceSecondSucceeds (st : SerialState) (cid : String) : Bool :=
  match st.close_connection cid with
  | Except.ok (_, st2) => closeSucceeds st2 cid
  | Except.error _ => false

/-- C7 as stated is false: on a registry holding one connection whose
transport reports not-open, the first `close` succeeds, but the second
`close` on the same connection id raises KeyError (not-found) — `close` is
not safe to call twice with the same id. -/
theorem c7_counterexample :
    closeSucceeds
      ⟨[("s1", ⟨"s1", "/dev/ttyUSB0", 115200, 8, "N", 1, false⟩)], 10⟩ "s1" =
      true ∧
    closeTwiceSecondSucceeds
      ⟨[("s1", ⟨"s1", "/dev/ttyUSB0", 115200, 8, "N", 1, false⟩)], 10⟩ "s1" =
      false := by
  decide

theorem find?_filter_out (l : List (String × Conn)) (cid : String) :
    (l.filter (fun p => !(p.1 == cid))).find? (fun e => e.1 == cid) = none := by
  rw [List.find?_eq_none]
  intro x hx
  have := List.of_mem_filter hx
  simpa using this

theorem closeSucceeds_eq_false_of_find?_none (st : SerialState) (cid : String)
    (h : st.connections.find? (fun e => e.1 == cid) = none) :
    closeSucceeds st cid = false := by
  unfold closeSucceeds SerialState.close_connection SerialState.remove_connection
  rw [h]

/-- C7 (amended): `close(id)` on a registered connection — in particular one
whose transport already reports not-open — succeeds without raising,
removing the connection and returning its id and port; but a second `close`
on the same id then yields a not-found error (KeyError), since the id is no
longer registered. -/
theorem c7_close_idempotent (st : SerialState) (cid : String)
    (entry : String × Conn)
    (hfind : st.connections.find? (fun e => e.1 == cid) = some entry)
    (hclosed : entry.2.ser_is_open = false) :
    st.close_connection cid =
      Except.ok ({ connection_id := cid, port := entry.2.port },
        { st with
          connections := st.connections.filter (fun p => !(p.1 == cid)) }) ∧
    closeSucceeds st cid = true ∧
    closeTwiceSecondSucceeds st cid = false := by
  have hclose : st.close_connection cid =
      Except.ok ({ connection_id := cid, port := entry.2.port },
        { st with
          connections := st.connections.filter (fun p => !(p.1 == cid)) }) := by
    unfold SerialState.close_connection SerialState.remove_connection
    rw [hfind]
  refine ⟨hclose, ?_, ?_⟩
  · unfold closeSucceeds
    rw [hclose]
  · unfold closeTwiceSecondSucceeds
    rw [hclose]
    exact closeSucceeds_eq_false_of_find?_none _ cid
      (find?_filter_out st.connections cid)

/-- Witness for C7's amended theorem at a concrete registry. -/
theorem c7_close_idempotent_witness :
    SerialState.close_connection
      ⟨[("s2", ⟨"s2", "/dev/ttyACM0", 9600, 8, "N", 1, false⟩)], 5⟩ "s2" =
      Except.ok ({ connection_id := "s2", port := "/dev/ttyACM0" },
        ⟨[], 5⟩) ∧
    closeTwiceSecondSucceeds
      ⟨[("s2", ⟨"s2", "/dev/ttyACM0", 9600, 8, "N", 1, false⟩)], 5⟩ "s2" =
      false :=
  ⟨(c7_close_idempotent
      ⟨[("s2", ⟨"s2", "/dev/ttyACM0", 9600, 8, "N", 1, false⟩)], 5⟩ "s2"
      ("s2", ⟨"s2", "/dev/ttyACM0", 9600, 8, "N", 1, false⟩)
      (by decide) (by decide)).1,
    (c7_close_idempotent
      ⟨[("s2", ⟨"s2", "/dev/ttyACM0", 9600, 8, "N", 1, false⟩)], 5⟩ "s2"
      ("s2", ⟨"s2", "/dev/ttyACM0", 9600, 8, "N", 1, false⟩)
      (by decide) (by decide)).2.2⟩

-- ---------------------------------------------------------------------------
-- C8 — no two open connections on the same port
-- ---------------------------------------------------------------------------

/-- No two registered connections that are both open reference the same
transport address (port). -/
def UniqueOpenPorts (st : SerialState) : Prop :=
  st.connections.Pairwise (fun x y =>
    x.2.ser_is_open = true → y.2.ser_is_open = true → x.2.port ≠ y.2.port)

theorem dictInsert_fresh (m : List (String × Conn)) (k : String) (v : Conn)
    (h : ∀ e ∈ m, e.1 ≠ k) : dictInsert m k v = m ++ [(k, v)] := by
  unfold dictInsert
  rw [if_neg]
  simp only [List.any_eq_true, not_exists, not_and, beq_iff_eq]
  intro e he
  simp [h e he]

theorem handle_open_state_cases (st : SerialState) (a : OpenArgs)
    (freshId : String) :
    (handle_open st a freshId).state = st ∨
    ((handle_open st a freshId).state =
        { st with connections := (dictInsert st.connections freshId
            ⟨freshId, a.port, a.baudrate, a.bytesize, a.parity,
              a.stopbits, true⟩) } ∧
      st.connections.find?
        (fun e => e.2.port == a.port && e.2.ser_is_open) = none ∧
      st.connections.length < st.max_connections) := by
  unfold handle_open
  split
  · exact Or.inl rfl
  split
  · exact Or.inl rfl
  split
  · exact Or.inl rfl
  split
  · exact Or.inl rfl
  split
  · exact Or.inl rfl
  · rename_i hdup
    unfold SerialState.add_connection
    split
    · rename_i hcap
      exact Or.inl rfl
    · rename_i hcap
      refine Or.inr ⟨rfl, hdup, by omega⟩

/-- C8: an `open` against a port that is already open under another
connection returns the `already_open` conflict error naming that
connection's id, and the registry is unchanged (the existing connection
remains registered); moreover the invariant "no two open connections
reference the same port" is preserved by `handle_open` (for a fresh id)
and by `close_connection`. -/
theorem c8_conflict_on_open_port :
    (∀ (st : SerialState) (a : OpenArgs) (freshId : String)
        (entry : String × Conn),
      st.connections.find?
          (fun e => e.2.port == a.port && e.2.ser_is_open) = some entry →
      (handle_open st a freshId).outcome = OpenOutcome.errAlreadyOpen entry.1 ∨
        (handle_open st a freshId).outcome = OpenOutcome.errInvalidParams) ∧
    (∀ (st : SerialState) (a : OpenArgs) (freshId : String)
        (entry : String × Conn),
      a.parity ∈ (["N", "E", "O", "M", "S"] : List String) →
      (a.stopbits = 1 ∨ a.stopbits = 3/2 ∨ a.stopbits = 2) →
      a.bytesize ∈ ([5, 6, 7, 8] : List Nat) →
      ¬ (a.timeout_ms < 0 ∨ a.write_timeout_ms < 0) →
      st.connections.find?
          (fun e => e.2.port == a.port && e.2.ser_is_open) = some entry →
      (handle_open st a freshId).outcome = OpenOutcome.errAlreadyOpen entry.1 ∧
        (handle_open st a freshId).state = st ∧
        entry ∈ st.connections ∧ entry.2.port = a.port ∧
        entry.2.ser_is_open = true) ∧
    (∀ (st : SerialState) (a : OpenArgs) (freshId : String),
      UniqueOpenPorts st → (∀ e ∈ st.connections, e.1 ≠ freshId) →
      UniqueOpenPorts (handle_open st a freshId).state) ∧
    (∀ (st : SerialState) (cid : String) (info : CloseInfo)
        (st2 : SerialState),
      st.close_connection cid = Except.ok (info, st2) →
      UniqueOpenPorts st → UniqueOpenPorts st2) := by
  refine ⟨?_, ?_, ?_, ?_⟩
  · intro st a freshId entry hfind
    unfold handle_open
    split
    · exact Or.inr rfl
    split
    · exact Or.inr rfl
    split
    · exact Or.inr rfl
    split
    · exact Or.inr rfl
    rw [hfind]
    exact Or.inl rfl
  · intro st a freshId entry hpar hstop hbyte htmo hfind
    have hmem := List.mem_of_find?_eq_some hfind
    have hp := List.find?_some hfind
    simp only [Bool.and_eq_true, beq_iff_eq] at hp
    have hrw : handle_open st a freshId =
        { outcome := OpenOutcome.errAlreadyOpen entry.1, state := st,
          readerStopped := false, transportClosed := false } := by
      unfold handle_open
      rw [if_neg (not_not_intro hpar), if_neg (not_not_intro hstop),
        if_neg (not_not_intro hbyte), if_neg htmo, hfind]
    rw [hrw]
    exact ⟨rfl, rfl, hmem, hp.1, hp.2⟩
  · intro st a freshId hU hfresh
    rcases handle_open_state_cases st a freshId with h | ⟨h, hdup, _⟩
    · rw [h]; exact hU
    · rw [h]
      unfold UniqueOpenPorts
      rw [dictInsert_fresh st.connections freshId _ hfresh,
        List.pairwise_append]
      refine ⟨hU, by simp, ?_⟩
      intro x hx y hy
      have hnot := List.find?_eq_none.mp hdup x hx
      simp only [Bool.and_eq_true, beq_iff_eq, not_and] at hnot
      simp only [List.mem_singleton] at hy
      subst hy
      intro hxopen _ hport
      exact absurd hxopen (by
        intro ho
        exact hnot hport ho)
  · intro st cid info st2 hclose hU
    unfold SerialState.close_connection SerialState.remove_connection at hclose
    rcases hfind : st.connections.find? (fun e => e.1 == cid) with _ | e
    · rw [hfind] at hclose
      exact absurd hclose (by simp)
    · rw [hfind] at hclose
      simp only [Except.ok.injEq, Prod.mk.injEq] at hclose
      have hst2 : st2 = { st with
          connections := st.connections.filter (fun p => !(p.1 == cid)) } := by
        exact hclose.2.symm
      rw [hst2]
      exact hU.sublist (List.filter_sublist _)

/-- Witness for C8: a second open of /dev/ttyUSB0 (already open as "s1")
yields the conflict error naming "s1" and leaves the registry unchanged. -/
theorem c8_conflict_on_open_port_witness :
    (handle_open
        ⟨[("s1", ⟨"s1", "/dev/ttyUSB0", 115200, 8, "N", 1, true⟩)], 10⟩
        ⟨"/dev/ttyUSB0", 9600, 8, "N", 1, 200, 200⟩ "s2").outcome =
      OpenOutcome.errAlreadyOpen "s1" ∧
    (handle_open
        ⟨[("s1", ⟨"s1", "/dev/ttyUSB0", 115200, 8, "N", 1, true⟩)], 10⟩
        ⟨"/dev/ttyUSB0", 9600, 8, "N", 1, 200, 200⟩ "s2").state =
      ⟨[("s1", ⟨"s1", "/dev/ttyUSB0", 115200, 8, "N", 1, true⟩)], 10⟩ :=
  ⟨(c8_conflict_on_open_port.2.1
      ⟨[("s1", ⟨"s1", "/dev/ttyUSB0", 115200, 8, "N", 1, true⟩)], 10⟩
      ⟨"/dev/ttyUSB0", 9600, 8, "N", 1, 200, 200⟩ "s2"
      ("s1", ⟨"s1", "/dev/ttyUSB0", 115200, 8, "N", 1, true⟩)
      (by decide) (by norm_num) (by decide) (by decide) (by decide)).1,
    (c8_conflict_on_open_port.2.1
      ⟨[("s1", ⟨"s1", "/dev/ttyUSB0", 115200, 8, "N", 1, true⟩)], 10⟩
      ⟨"/dev/ttyUSB0", 9600, 8, "N", 1, 200, 200⟩ "s2"
      ("s1", ⟨"s1", "/dev/ttyUSB0", 115200, 8, "N", 1, true⟩)
      (by decide) (by norm_num) (by decide) (by decide) (by decide)).2.1⟩

-- ---------------------------------------------------------------------------
-- C9 — mirror-slot allocator (mirror.py lines 301-318, 226-245)
-- ---------------------------------------------------------------------------

/-- The `while idx in _mirror_indices_in_use: idx += 1` loop of
`_acquire_mirror_index`, with explicit fuel (the loop needs at most
`|inUse| + 1` probes starting from 0). -/
def firstFreeIdx (inUse : List Nat) : Nat → Nat → Nat
  | 0, idx => idx
  | fuel + 1, idx =>
    if idx ∈ inUse then firstFreeIdx inUse fuel (idx + 1) else idx

/-- `_acquire_mirror_index`: returns the lowest available index and adds it
to the in-use set (modelled as a duplicate-free list). -/
def _acquire_mirror_index (inUse : List Nat) : Nat × List Nat :=
  let idx := firstFreeIdx inUse (inUse.length + 1) 0
  (idx, idx :: inUse)

/-- `_release_mirror_index`: `set.discard`. -/
def _release_mirror_index (inUse : List Nat) (idx : Nat) : List Nat :=
  inUse.filter (fun x => x != idx)

/-- `MirrorSession.stop` restricted to its allocator effect (mirror.py
lines 243-245): when the session holds a mirror index, release it back to
the pool and clear it. -/
def MirrorSession.stop (mirrorIndex : Option Nat) (inUse : List Nat) :
    Option Nat × List Nat :=
  match mirrorIndex with
  | some i => (none, _release_mirror_index inUse i)
  | none => (none, inUse)

theorem firstFreeIdx_spec (inUse : List Nat) :
    ∀ (fuel idx : Nat), (inUse.filter (fun x => idx ≤ x)).length < fuel →
      firstFreeIdx inUse fuel idx ∉ inUse ∧
        idx ≤ firstFreeIdx inUse fuel idx ∧
        ∀ m, idx ≤ m → m < firstFreeIdx inUse fuel idx → m ∈ inUse := by
  intro fuel
  induction fuel with
  | zero => intro idx h; omega
  | succ n ih =>
    intro idx h
    by_cases hidx : idx ∈ inUse
    · have hstep : firstFreeIdx inUse (n + 1) idx =
          firstFreeIdx inUse n (idx + 1) := by
        conv_lhs => rw [firstFreeIdx]
        rw [if_pos hidx]
      have hkey : (inUse.filter (fun x => idx + 1 ≤ x)).length <
          (inUse.filter (fun x => idx ≤ x)).length := by
        have hsub : inUse.filter (fun x => decide (idx + 1 ≤ x)) =
            (inUse.filter (fun x => decide (idx ≤ x))).filter
              (fun x => decide (idx + 1 ≤ x)) := by
          rw [List.filter_filter]
          apply List.filter_congr
          intro x _
          by_cases hx : idx + 1 ≤ x
          · simp [hx, Nat.le_of_succ_le hx]
          · simp [hx]
        rw [hsub]
        rw [List.length_filter_lt_length_iff_exists]
        refine ⟨idx, ?_, by simp⟩
        rw [List.mem_filter]
        exact ⟨hidx, by simp⟩
      have hrec := ih (idx + 1) (by omega)
      obtain ⟨h1, h2, h3⟩ := hrec
      rw [hstep]
      refine ⟨h1, by omega, ?_⟩
      intro m hm1 hm2
      rcases Nat.eq_or_lt_of_le hm1 with heq | hlt
      · rw [← heq]; exact hidx
      · exact h3 m hlt hm2
    · have hstep : firstFreeIdx inUse (n + 1) idx = idx := by
        conv_lhs => rw [firstFreeIdx]
        rw [if_neg hidx]
      rw [hstep]
      exact ⟨hidx, Nat.le_refl idx, fun m hm1 hm2 => by omega⟩

theorem acquire_spec (inUse : List Nat) :
    (_acquire_mirror_index inUse).1 ∉ inUse ∧
      ∀ m, m < (_acquire_mirror_index inUse).1 → m ∈ inUse := by
  have hfuel : (inUse.filter (fun x => 0 ≤ x)).length < inUse.length + 1 :=
    Nat.lt_succ_of_le (inUse.length_filter_le _)
  have h := firstFreeIdx_spec inUse (inUse.length + 1) 0 hfuel
  exact ⟨h.1, fun m hm => h.2.2 m (Nat.zero_le m) hm⟩

/-- C9: the allocator always hands out the lowest free non-negative index
(never one already in use, and every smaller index is in use); stopping a
MirrorSession releases its index, restoring the pool exactly, so the next
acquisition returns the same index again. -/
theorem c9_mirror_slot_allocator :
    (∀ inUse : List Nat, (_acquire_mirror_index inUse).1 ∉ inUse) ∧
    (∀ inUse : List Nat, ∀ m, m < (_acquire_mirror_index inUse).1 →
      m ∈ inUse) ∧
    (∀ inUse : List Nat, (∀ x ∈ inUse, x ≠ (_acquire_mirror_index inUse).1) →
      MirrorSession.stop (some (_acquire_mirror_index inUse).1)
          (_acquire_mirror_index inUse).2 = (none, inUse) ∧
        (_acquire_mirror_index
            (MirrorSession.stop (some (_acquire_mirror_index inUse).1)
              (_acquire_mirror_index inUse).2).2).1 =
          (_acquire_mirror_index inUse).1) := by
  refine ⟨fun inUse => (acquire_spec inUse).1,
    fun inUse => (acquire_spec inUse).2, ?_⟩
  intro inUse hne
  have hrel : ∀ (i : Nat) (s : List Nat), MirrorSession.stop (some i) s =
      (none, s.filter (fun x => x != i)) := fun i s => rfl
  have hstop : MirrorSession.stop (some (_acquire_mirror_index inUse).1)
      (_acquire_mirror_index inUse).2 = (none, inUse) := by
    have h2 : (_acquire_mirror_index inUse).2 =
        (_acquire_mirror_index inUse).1 :: inUse := rfl
    rw [h2, hrel, List.filter_cons]
    simp only [bne_self_eq_false, Bool.false_eq_true, if_false,
      Prod.mk.injEq, true_and]
    rw [List.filter_eq_self]
    intro a ha
    simpa using hne a ha
  exact ⟨hstop, by rw [hstop]⟩

/-- Witness for C9: with indices 0, 1 and 3 in use the allocator returns 2;
index 1 is indeed smaller and in use; and stop returns the pool to its
prior contents. -/
theorem c9_mirror_slot_allocator_witness :
    (_acquire_mirror_index [0, 1, 3]).1 ∉ ([0, 1, 3] : List Nat) ∧
    (1 : Nat) ∈ ([0, 1, 3] : List Nat) ∧
    MirrorSession.stop (some (_acquire_mirror_index [0, 1, 3]).1)
        (_acquire_mirror_index [0, 1, 3]).2 = (none, [0, 1, 3]) :=
  ⟨c9_mirror_slot_allocator.1 [0, 1, 3],
    c9_mirror_slot_allocator.2.1 [0, 1, 3] 1 (by decide),
    (c9_mirror_slot_allocator.2.2 [0, 1, 3] (by decide)).1⟩

-- ---------------------------------------------------------------------------
-- C10 — MAX_READ_BYTES clamp in the read handlers
-- ---------------------------------------------------------------------------

/-- `MAX_READ_BYTES` (handlers_serial.py line 47): 1 MiB. -/
def MAX_READ_BYTES : Nat := 1048576

/-- `handle_read` (lines 537-544), restricted to its buffer interaction:
`nbytes = min(args.get("nbytes", 256), MAX_READ_BYTES)` then
`conn.buffer.read(nbytes, timeout_s)`. -/
def handle_read (b : SerialBuffer) (nbytes : Nat) : List Nat × SerialBuffer :=
  b.read (min nbytes MAX_READ_BYTES)

/-- `handle_readline` (lines 605-614): `max_bytes = min(args.get("max_bytes",
4096), MAX_READ_BYTES)` then `conn.buffer.read_until(newline, max_bytes,
timeout_s)`. -/
def handle_readline (b : SerialBuffer) (newline : List Nat) (max_bytes : Nat) :
    List Nat × SerialBuffer :=
  b.read_until newline (min max_bytes MAX_READ_BYTES)

/-- `handle_read_until` (lines 625-634): same clamp, caller-chosen
delimiter. -/
def handle_read_until (b : SerialBuffer) (delimiter : List Nat)
    (max_bytes : Nat) : List Nat × SerialBuffer :=
  b.read_until delimiter (min max_bytes MAX_READ_BYTES)

theorem SerialBuffer.read_length_le (b : SerialBuffer) (n : Nat) :
    (b.read n).1.length ≤ n := by
  unfold SerialBuffer.read
  split
  · simp
  · simp only [List.length_take]
    exact Nat.le_trans (Nat.min_le_left _ _) (Nat.min_le_left _ _)

theorem SerialBuffer.read_until_length_le (b : SerialBuffer) (d : List Nat)
    (maxB : Nat) : (b.read_until d maxB).1.length ≤ maxB := by
  unfold SerialBuffer.read_until
  rcases hf : bytesFind d b.buf with _ | i
  · simp only []
    split
    · simp only [List.length_take]
      exact Nat.min_le_left _ _
    · simp only [List.length_take]
      exact Nat.le_trans (Nat.min_le_left _ _) (Nat.min_le_right _ _)
  · simp only [List.length_take]
    exact Nat.le_trans (Nat.min_le_left _ _) (Nat.min_le_right _ _)

/-- C10: every read-style handler clamps the caller-supplied byte count to
`MAX_READ_BYTES` (1 MiB = 1,048,576) before touching the buffer, so no
single read, readline, or read_until ever returns more than 1 MiB,
whatever value the caller supplied. -/
theorem c10_read_handlers_clamp :
    MAX_READ_BYTES = 1048576 ∧
    (∀ (b : SerialBuffer) (nbytes : Nat),
      (handle_read b nbytes).1.length ≤ MAX_READ_BYTES) ∧
    (∀ (b : SerialBuffer) (newline : List Nat) (maxB : Nat),
      (handle_readline b newline maxB).1.length ≤ MAX_READ_BYTES) ∧
    (∀ (b : SerialBuffer) (delim : List Nat) (maxB : Nat),
      (handle_read_until b delim maxB).1.length ≤ MAX_READ_BYTES) := by
  refine ⟨rfl, ?_, ?_, ?_⟩
  · intro b nbytes
    exact Nat.le_trans (SerialBuffer.read_length_le b _)
      (Nat.min_le_right _ _)
  · intro b newline maxB
    exact Nat.le_trans (SerialBuffer.read_until_length_le b _ _)
      (Nat.min_le_right _ _)
  · intro b delim maxB
    exact Nat.le_trans (SerialBuffer.read_until_length_le b _ _)
      (Nat.min_le_right _ _)
